import Mathlib

/-!
Verification of the eclipse-kanto/aws-connector core against its source.

The development shallowly embeds the Go sources:
- the device-to-cloud transformer (`passthrough` package: `toShadowMessages`,
  `toShadowMessage`, `toShadowTopic`, `integrate`, `search`,
  `getFeatureProperties`, the payload/topic filters and `HandleMessage`),
- the shadow-state mirror (`state` package: `HandleMessage`, `getShadowID`,
  `getReportedState`, `find`),
- the command request filter (`bus` package: `filter`).

JSON values (Go `interface{}` trees produced by `encoding/json`) are modelled
by the mutually inductive `Json`/`JsonList`/`JsonFields` types; Go `nil`
interfaces correspond to `Json.null`, Go maps to `JsonFields` association
lists (iteration order of a Go map is abstracted as the list order).
Compiled regular expressions are abstracted as `String → Bool` matchers,
and JSON byte-level parsing/serialization as abstract function parameters.
-/

set_option autoImplicit false

namespace AwsConnector

mutual

/-- A JSON value as decoded by Go `encoding/json` into `interface{}`. -/
inductive Json where
  | null
  | bool (b : Bool)
  | num (n : Int)
  | str (s : String)
  | arr (elems : JsonList)
  | obj (fields : JsonFields)

/-- The elements of a JSON array. -/
inductive JsonList where
  | nil
  | cons (hd : Json) (tl : JsonList)

/-- The fields of a JSON object (a Go `map[string]interface{}`). -/
inductive JsonFields where
  | nil
  | cons (key : String) (value : Json) (tl : JsonFields)

end

deriving instance DecidableEq for Json, JsonList, JsonFields

/-- Lookup of a key in an object, i.e. Go `v, ok := m[key]`. -/
def lookupJF : JsonFields → String → Option Json
  | .nil, _ => none
  | .cons k v tl, key => if k = key then some v else lookupJF tl key

/-- Go map assignment `m[key] = v` (replace or add). -/
def setKey : JsonFields → String → Json → JsonFields
  | .nil, key, v => .cons key v .nil
  | .cons k w tl, key, v =>
    if k = key then .cons k v tl else .cons k w (setKey tl key v)

/-- Whether an object has no fields (Go `len(m) == 0`). -/
def JsonFields.isNil : JsonFields → Bool
  | .nil => true
  | .cons _ _ _ => false

def JsonFields.append : JsonFields → JsonFields → JsonFields
  | .nil, r => r
  | .cons k v tl, r => .cons k v (JsonFields.append tl r)

def JsonFields.length : JsonFields → Nat
  | .nil => 0
  | .cons _ _ tl => tl.length + 1

def JsonList.isNil : JsonList → Bool
  | .nil => true
  | .cons _ _ => false

def JsonList.length : JsonList → Nat
  | .nil => 0
  | .cons _ tl => tl.length + 1

/-- Array indexing `a[i]` as an option. -/
def JsonList.get? : JsonList → Nat → Option Json
  | .nil, _ => none
  | .cons v _, 0 => some v
  | .cons _ tl, n + 1 => JsonList.get? tl n

/-- The fields of an object as a plain list of key-value pairs.  Two
objects whose field lists are permutations of each other denote the same
JSON document: a Go map carries no order, and `range` may visit the
entries of the same parsed payload in any order on each invocation. -/
def JsonFields.toList : JsonFields → List (String × Json)
  | .nil => []
  | .cons k v tl => (k, v) :: tl.toList

/-!  String helpers.

All string operations of the Go sources (`strings.Split`, `strings.Contains`,
`strings.HasPrefix`, `strings.HasSuffix`, slicing) are modelled on the
character lists underlying `String`, by structural recursion, so that they
evaluate inside the kernel.  The identifiers involved are ASCII, so Go's
byte-based lengths and offsets agree with character counts. -/

/-- Split a character list at every occurrence of the character `sep`
(Go `strings.Split` with a one-character separator). -/
def splitChar (sep : Char) : List Char → List (List Char)
  | [] => [[]]
  | c :: rest =>
    if c = sep then [] :: splitChar sep rest
    else
      match splitChar sep rest with
      | [] => [[c]]
      | w :: ws => (c :: w) :: ws

/-- Go `strings.Split(s, sep)` for a one-character separator `sep`. -/
def strSplitChar (s : String) (sep : Char) : List String :=
  (splitChar sep s.data).map (fun l => String.mk l)

/-- Whether `sub` occurs as a contiguous sublist of `s`. -/
def containsSub (sub : List Char) : List Char → Bool
  | [] => sub.isEmpty
  | c :: rest => sub.isPrefixOf (c :: rest) || containsSub sub rest

/-- Go `strings.Contains(s, sub)`. -/
def strContains (s sub : String) : Bool :=
  containsSub sub.data s.data

/-- Go `strings.HasSuffix(s, suffix)`. -/
def strEndsWith (s suffix : String) : Bool :=
  suffix.data.isSuffixOf s.data

/-- Go `strings.HasPrefix(s, pre)`. -/
def strStartsWith (s pre : String) : Bool :=
  pre.data.isPrefixOf s.data

/-- Go string slicing `s[n:]` (ASCII identifiers, so bytes = characters). -/
def strDrop (s : String) (n : Nat) : String :=
  String.mk (s.data.drop n)

/-- Character-count length of a string. -/
def strLen (s : String) : Nat :=
  s.data.length

/-!  Data model of the device-to-cloud transformer (`passthrough` package). -/

/-- A parsed Ditto protocol topic (`protocol.Topic` of ditto-clients-golang):
`namespace/entityName/group/channel/criterion/action`.  The protocol
constants (`protocol.GroupThings = "things"`, `protocol.ChannelTwin = "twin"`,
`protocol.CriterionCommands = "commands"`, `protocol.ActionCreate = "create"`,
...) are represented by their string values. -/
structure DittoTopic where
  ns : String
  entityName : String
  group : String
  channel : String
  criterion : String
  action : String

/-- `protocol.Topic.String()` for the topics relevant here:
the slash-joined form matched by the topic filter. -/
def DittoTopic.fullString (t : DittoTopic) : String :=
  t.ns ++ "/" ++ t.entityName ++ "/" ++ t.group ++ "/" ++ t.channel ++ "/" ++
    t.criterion ++ "/" ++ t.action

/-- A parsed Ditto envelope (`protocol.Envelope`): `topic`, `path`, `value`
and `status` (0 when absent).  A JSON `null` / absent `value` is
`Json.null`, matching Go's `nil` interface. -/
structure Envelope where
  topic : DittoTopic
  path : String
  value : Json
  status : Int

/-- The device handler's configuration: device identity and the compiled
filters (`settings.TopicFilterRegexp`, `settings.PayloadFiltersRegexp`);
compiled regular expressions are abstracted as `String → Bool` matchers. -/
structure Handler where
  deviceID : String
  payloadFilters : List (String → Bool)
  topicFilter : Option (String → Bool)

/-- An outbound AWS message: the destination topic attached to the message
context by `toShadowMessage`, and the payload (`none` is the empty payload
of a delete message). -/
structure OutMsg where
  topic : String
  payload : Option Json

/-- Template `topicRootShadow = "$aws/things/%s/shadow/%s"`. -/
def rootShadowTopic (d target : String) : String :=
  "$aws/things/" ++ d ++ "/shadow/" ++ target

/-- Template `topicNamedShadow = "$aws/things/%s/shadow/name/%s/%s"`. -/
def namedShadowTopic (d n target : String) : String :=
  "$aws/things/" ++ d ++ "/shadow/name/" ++ n ++ "/" ++ target

/-- Template `topicComplexNamedShadow = "$aws/things/%s/shadow/name/%s:%s/%s"`. -/
def complexNamedShadowTopic (d c f target : String) : String :=
  "$aws/things/" ++ d ++ "/shadow/name/" ++ c ++ ":" ++ f ++ "/" ++ target

/-- `isEntireShadow`: a value updates the entire shadow when it is not a
map, or is an empty map. -/
def isEntireShadow : Json → Bool
  | .obj fields => fields.isNil
  | _ => true

/-- `integrate`: re-apply a JSON pointer path to a value, wrapping the value
as `{seg: inner}` for every non-empty segment, last segment innermost. -/
def integrate (path : List String) (value : Json) : Json :=
  path.foldr (fun seg acc => if seg = "" then acc else Json.obj (.cons seg acc .nil)) value

/-- `isDittoRequest`: status zero, group `things` and the thing identity
equal to or a `:`-child of the configured device identity. -/
def isDittoRequest (h : Handler) (env : Envelope) : Bool :=
  let id := env.topic.ns ++ ":" ++ env.topic.entityName
  env.status = 0 && env.topic.group = "things" &&
    (id = h.deviceID || strStartsWith id (h.deviceID ++ ":"))

/-- `isShadowMessage`: a twin-commands request with action create, modify,
merge or delete. -/
def isShadowMessage (h : Handler) (env : Envelope) : Bool :=
  isDittoRequest h env &&
    env.topic.channel = "twin" && env.topic.criterion = "commands" &&
    (env.topic.action = "create" || env.topic.action = "modify" ||
      env.topic.action = "merge" || env.topic.action = "delete")

/-- `toShadowTopic`: the AWS shadow topic for a message, and whether it is
an update (as opposed to a delete with empty payload). -/
def toShadowTopic (h : Handler) (topic : DittoTopic) (featureName : String) (value : Json) :
    String × Bool :=
  let isDel := topic.action = "delete" && isEntireShadow value
  let target := if isDel then "delete" else "update"
  let topicID := topic.ns ++ ":" ++ topic.entityName
  let res :=
    if strLen h.deviceID = strLen topicID then
      if featureName = "" then rootShadowTopic h.deviceID target
      else namedShadowTopic h.deviceID featureName target
    else
      if featureName = "" then
        namedShadowTopic h.deviceID (strDrop topicID (strLen h.deviceID + 1)) target
      else
        complexNamedShadowTopic h.deviceID (strDrop topicID (strLen h.deviceID + 1))
          featureName target
  (res, !isDel)

/-- The `target` suffix chosen by `toShadowTopic`: `delete` exactly for a
delete action on an entire-shadow value, `update` otherwise. -/
def shadowTarget (topic : DittoTopic) (value : Json) : String :=
  if topic.action = "delete" && isEntireShadow value then "delete" else "update"

/-- The payload wrapper of `toShadowMessage`:
`integrate(["state", "reported"], value)`. -/
def stateWrap (value : Json) : Json :=
  integrate ["state", "reported"] value

/-- `toShadowMessage`: build the outbound message for one shadow scope.
An update carries `{"state":{"reported":value}}`; a delete has an empty
payload.  (The watermill UUID and the context plumbing carry no
information and are not modelled.) -/
def toShadowMessage (h : Handler) (env : Envelope) (featureName : String) (value : Json) :
    OutMsg :=
  let t := toShadowTopic h env.topic featureName value
  { topic := t.1, payload := if t.2 then some (stateWrap value) else none }

/-- `search key value fn` for the callback used by `toShadowMessages` on the
`attributes` key: `some` of the found map when the key maps to a map,
`some Json.null` when the key is present with a non-map value (the callback
receives a nil map, which marshals like `null` and is not a non-empty map),
`none` when the value is not a map or lacks the key. -/
def searchKey (key : String) (value : Json) : Option Json :=
  match value with
  | .obj fields =>
    match lookupJF fields key with
    | some (.obj f2) => some (.obj f2)
    | some _ => some .null
    | none => none
  | _ => none

/-- `getFeatureProperties`: all feature properties, including the
definition; the flag is Go's `len(res) > 0`. -/
def getFeatureProperties (obj : Json) : Json × Bool :=
  match obj with
  | .obj fields =>
    let props :=
      match lookupJF fields "properties" with
      | some (.obj pf) => pf
      | _ => .nil
    let res :=
      match lookupJF fields "definition" with
      | some d => setKey props "definition" d
      | none => props
    (.obj res, !res.isNil)
  | _ => (.obj .nil, false)

/-- Whether some payload filter matches the synthesized JSON path
(the loop over `h.payloadFilters` at a leaf of `_filterPayload`). -/
def anyMatch (flt : List (String → Bool)) (path : String) : Bool :=
  flt.any (fun f => f path)

mutual

/-- `_filterPayload`: recursively remove the parts of a JSON value whose
synthesized path matches a payload filter; the flag says the node itself
became empty (or is a matched leaf) and is to be removed by the caller. -/
def fpJson (flt : List (String → Bool)) (path : String) : Json → Bool × Json
  | .obj fields =>
    let nf := fpFields flt path fields
    (nf.isNil, .obj nf)
  | .arr elems =>
    let ne := fpList flt path 0 elems
    (ne.isNil, .arr ne)
  | j => (anyMatch flt path, j)

/-- The object case of `_filterPayload`: per-field recursion with path
`path/name`, dropping removed fields. -/
def fpFields (flt : List (String → Bool)) (path : String) : JsonFields → JsonFields
  | .nil => .nil
  | .cons k v tl =>
    match fpJson flt (path ++ "/" ++ k) v with
    | (true, _) => fpFields flt path tl
    | (false, v2) => .cons k v2 (fpFields flt path tl)

/-- The array case of `_filterPayload`: per-element recursion with path
`path/index` (indices are the original positions; the Go loop walks the
array backwards so removals do not shift the indices it still visits). -/
def fpList (flt : List (String → Bool)) (path : String) (i : Nat) : JsonList → JsonList
  | .nil => .nil
  | .cons v tl =>
    match fpJson flt (path ++ "/" ++ Nat.repr i) v with
    | (true, _) => fpList flt path (i + 1) tl
    | (false, v2) => .cons v2 (fpList flt path (i + 1) tl)

end

/-- `filterPayload`: apply the payload filters when any are configured;
a fully removed value becomes `Json.null` (Go `nil`). -/
def filterPayload (h : Handler) (data : Json) : Json :=
  if h.payloadFilters.length > 0 then
    match fpJson h.payloadFilters "" data with
    | (true, _) => .null
    | (false, v) => v
  else data

/-- Whether the configured topic filter matches the envelope's topic string. -/
def topicFilterMatches (h : Handler) (env : Envelope) : Bool :=
  match h.topicFilter with
  | some f => f env.topic.fullString
  | none => false

/-- The body of the `range features` loop of `toShadowMessages`: an
explicitly `null` feature yields a feature message with value `null`;
otherwise the feature properties are extracted and a message is emitted
when they are non-empty. -/
def featureMsg1 (h : Handler) (env : Envelope) (fname : String) (feature : Json) :
    List OutMsg :=
  match feature with
  | .null => [toShadowMessage h env fname .null]
  | f =>
    match getFeatureProperties f with
    | (props, true) => [toShadowMessage h env fname props]
    | (_, false) => []

/-- The `range features` loop of `toShadowMessages`. -/
def featureMsgs (h : Handler) (env : Envelope) : JsonFields → List OutMsg
  | .nil => []
  | .cons fname feature tl => featureMsg1 h env fname feature ++ featureMsgs h env tl

/-- The update messages for the found `attributes` of the filtered value. -/
def attrMsgsOf (h : Handler) (env : Envelope) (value : Json) : List OutMsg :=
  match searchKey "attributes" value with
  | some a => [toShadowMessage h env "" a]
  | none => []

/-- The update messages for every found feature of the filtered value
(the `search(valueFeaturesTag, ...)` callback: a features map iterates its
entries; the callback's nil map for a non-map `features` value iterates
nothing). -/
def featMsgsOf (h : Handler) (env : Envelope) (value : Json) : List OutMsg :=
  match value with
  | .obj fields =>
    match lookupJF fields "features" with
    | some (.obj ff) => featureMsgs h env ff
    | _ => []
  | _ => []

/-- `toShadowMessages`: convert a Ditto envelope to device shadow messages;
the flag says the envelope was handled as a shadow message.  The Go
`value == nil` test after filtering is the `value = .null` test. -/
def toShadowMessages (h : Handler) (env : Envelope) : List OutMsg × Bool :=
  if isShadowMessage h env then
    if topicFilterMatches h env then ([], true)
    else
      let value := filterPayload h (integrate (strSplitChar env.path '/') env.value)
      if value = .null then ([], true)
      else (attrMsgsOf h env value ++ featMsgsOf h env value, true)
  else ([], false)

/-- `HandleMessage` of the device handler: parse the payload as an envelope
(parsing of raw bytes is abstracted by the `parse` parameter); shadow
messages are transformed, everything else is delegated to the default
pass-through events handler (abstracted by `defaultHandler`).  The error
component models the returned Go `error` (`none` is `nil`). -/
def handleMessage (h : Handler) (parse : String → Option Envelope)
    (defaultHandler : String → List OutMsg × Option String) (payload : String) :
    List OutMsg × Option String :=
  match parse payload with
  | some env =>
    match toShadowMessages h env with
    | (msgs, true) => (msgs, none)
    | (_, false) => defaultHandler payload
  | none => defaultHandler payload

/-- The serialization step `payload, _ = json.Marshal(value)` of
`toShadowMessage`, for an arbitrary serializer `ser`: a failed marshal is
discarded and leaves the payload empty, like the ignored Go error. -/
def emitBytes (ser : Json → Option String) (m : OutMsg) : String × String :=
  (m.topic, (m.payload.bind ser).getD "")

mutual

/-- Every leaf (non-object, non-array node) of a value has a synthesized
path (built exactly as in `_filterPayload`) matched by some payload filter. -/
def allLeavesMatch (flt : List (String → Bool)) (path : String) : Json → Bool
  | .obj fields => allLeavesMatchFields flt path fields
  | .arr elems => allLeavesMatchList flt path 0 elems
  | _ => anyMatch flt path

/-- `allLeavesMatch` over the fields of an object. -/
def allLeavesMatchFields (flt : List (String → Bool)) (path : String) : JsonFields → Bool
  | .nil => true
  | .cons k v tl =>
    allLeavesMatch flt (path ++ "/" ++ k) v && allLeavesMatchFields flt path tl

/-- `allLeavesMatch` over the elements of an array. -/
def allLeavesMatchList (flt : List (String → Bool)) (path : String) (i : Nat) : JsonList → Bool
  | .nil => true
  | .cons v tl =>
    allLeavesMatch flt (path ++ "/" ++ Nat.repr i) v && allLeavesMatchList flt path (i + 1) tl

end

/-!  The shadow-state mirror (`state` package, `shadow_state_handler.go`). -/

/-- `find`: field lookup treating an explicit JSON `null` (Go `nil`) as
not found. -/
def findField (name : String) (values : Json) : Option Json :=
  match values with
  | .obj fields =>
    match lookupJF fields name with
    | some .null => none
    | some v => some v
    | none => none
  | _ => none

/-- `getReportedState`: the `state.reported` subtree of an accepted
notification payload. -/
def getReportedState (payload : Json) : Option Json :=
  match findField "state" payload with
  | none => none
  | some state => findField "reported" state

/-- `getShadowID`: the 6th slash-delimited segment of the AWS topic when it
contains `/name/`, otherwise the root device identity.  (On a topic with
`/name/` but fewer than six segments the Go code panics on the index; the
model returns `""`, a case no subscribed topic reaches.) -/
def getShadowID (deviceID topic : String) : String :=
  if strContains topic "/name/" then (strSplitChar topic '/').getD 5 ""
  else deviceID

/-- The mirror: the process-wide `shadows` map, as a lookup function
(`none` is a missing entry). -/
def Mirror : Type := String → Option Json

/-- The outcome of the shadow state handler: the new mirror and the
returned Go `error` (the message list it returns is always `nil`). -/
structure StateStep where
  shadows : Mirror
  error : Option String

/-- `HandleMessage` of the shadow state handler: a missing context topic is
an error; a `/delete/accepted` topic removes the mirror entry; otherwise
the payload (its JSON parse abstracted as `Option Json`, `none` for
unparseable bytes) must contain `state.reported`, which replaces the
mirror entry for the topic's shadow identifier. -/
def shadowStateHandle (deviceID : String) (shadows : Mirror) (topicCtx : Option String)
    (payload : Option Json) : StateStep :=
  match topicCtx with
  | none => { shadows := shadows, error := some "No topic in context" }
  | some topic =>
    let shadowID := getShadowID deviceID topic
    if strEndsWith topic "/delete/accepted" then
      { shadows := fun s => if s = shadowID then none else shadows s, error := none }
    else
      match payload with
      | none => { shadows := shadows, error := some "Invalid json payload" }
      | some p =>
        match getReportedState p with
        | none => { shadows := shadows, error := some "Invalid Payload structure" }
        | some reported =>
          { shadows := fun s => if s = shadowID then some reported else shadows s,
            error := none }

/-!  The command request filter (`bus` package, `commands_bus.go`). -/

/-- Whether an envelope's thing identity targets the configured device or
one of its children: `id == deviceID || strings.HasPrefix(id, deviceID+":")`. -/
def thingMatches (deviceID : String) (t : DittoTopic) : Bool :=
  let id := t.ns ++ ":" ++ t.entityName
  id = deviceID || strStartsWith id (deviceID ++ ":")

/-- `filter`: the middleware around the command request handler.  Parsing
the raw payload bytes into an envelope topic is abstracted by `parseEnv`;
`inner` is the wrapped handler applied to the message. -/
def cmdFilter (deviceID : String) (inner : String → List OutMsg × Option String)
    (parseEnv : String → Option DittoTopic) (payload : String) :
    List OutMsg × Option String :=
  match parseEnv payload with
  | some t => if thingMatches deviceID t then inner payload else ([], none)
  | none => ([], none)

/-!  The mirror merge of the current device handler.

The transformer of the current repository merges an update against the last
mirrored shadow state before wrapping it under `state.reported`
(§4.3 step 9 of the specification; exercised by
`assertMergeWithCurrentState` in `device_handler_test.go`).  The
implementation of that merge is not among the source files (the
`passthrough` handler present is an earlier revision without the mirror),
so it is modelled from the specification below. -/

/-- Modelled from the spec: the `null` tombstones for the keys of `prev`
(second argument) that are not present in `next` (first argument). -/
def tombstones (nf : JsonFields) : JsonFields → JsonFields
  | .nil => .nil
  | .cons k _ tl =>
    if (lookupJF nf k).isSome then tombstones nf tl
    else .cons k Json.null (tombstones nf tl)

mutual

/-- Modelled from the spec: the deep merge-and-tombstone of the missing
mirror-merge step of the current device handler — "for every key reachable
in `prev` but not in `next` at the same path, `merged` contains that key
with value `null`; keys present in `next` override `prev`; arrays of
objects are merged index-wise in the same way, and the resulting array
length equals the length of `next`". -/
def mergeReported : Json → Json → Json
  | .obj pf, .obj nf => .obj (JsonFields.append (mergeNext pf nf) (tombstones nf pf))
  | .arr pa, .arr na => .arr (mergeArr pa na)
  | _, n => n

/-- Modelled from the spec: the fields of `next` after the merge — each
value overrides `prev`, merging recursively where `prev` has the key. -/
def mergeNext (pf : JsonFields) : JsonFields → JsonFields
  | .nil => .nil
  | .cons k v tl =>
    .cons k
      (match lookupJF pf k with
       | some pv => mergeReported pv v
       | none => v)
      (mergeNext pf tl)

/-- Modelled from the spec: index-wise merge of arrays, truncated to the
length of `next`. -/
def mergeArr : JsonList → JsonList → JsonList
  | _, .nil => .nil
  | .nil, .cons n ns => .cons n (mergeArr .nil ns)
  | .cons p ps, .cons n ns => .cons (mergeReported p n) (mergeArr ps ns)

end

/-- Modelled from the spec: merge against an optional mirror entry — "if
`prev` is none, no tombstones are added; `next` is used verbatim". -/
def mergeOpt (prev : Option Json) (next : Json) : Json :=
  match prev with
  | none => next
  | some p => mergeReported p next

/-- One step of a JSON path: an object key or an array index. -/
inductive PathStep where
  | key (k : String)
  | idx (i : Nat)

/-- Navigate a value along a path of keys and indices. -/
def getPath : Json → List PathStep → Option Json
  | j, [] => some j
  | .obj fields, .key k :: p =>
    match lookupJF fields k with
    | some v => getPath v p
    | none => none
  | .arr elems, .idx i :: p =>
    match JsonList.get? elems i with
    | some v => getPath v p
    | none => none
  | _, _ => none

/-- A leaf: a node that is neither an object nor an array. -/
def isLeaf : Json → Bool
  | .obj _ => false
  | .arr _ => false
  | _ => true

deriving instance DecidableEq for OutMsg

/-!  Concrete fixtures, following the repository's own test data
(`deviceID = "test:device"`). -/

/-- The device handler configured as in the tests: no filters. -/
def hStd : Handler :=
  { deviceID := "test:device", payloadFilters := [], topicFilter := none }

/-- A handler whose topic filter matches every topic. -/
def hTopicFilterAll : Handler :=
  { deviceID := "test:device", payloadFilters := [], topicFilter := some (fun _ => true) }

/-- A handler with one payload filter matching every path. -/
def hPayloadFilterAll : Handler :=
  { deviceID := "test:device", payloadFilters := [fun _ => true], topicFilter := none }

/-- Root attribute update: topic `test/device/things/twin/commands/modify`,
path `/attributes/test`, value `200`. -/
def envRootAttr : Envelope :=
  { topic := { ns := "test", entityName := "device", group := "things", channel := "twin",
               criterion := "commands", action := "modify" },
    path := "/attributes/test", value := .num 200, status := 0 }

/-- Child feature property update: topic
`test/device:edge/things/twin/commands/modify`, path
`/features/test/properties/status`, value `200`. -/
def envChildFeat : Envelope :=
  { topic := { ns := "test", entityName := "device:edge", group := "things", channel := "twin",
               criterion := "commands", action := "modify" },
    path := "/features/test/properties/status", value := .num 200, status := 0 }

/-- A modify envelope whose reconstructed value `{"attributes":{}}` has no
leaves at all. -/
def envEmptyAttrs : Envelope :=
  { topic := { ns := "test", entityName := "device", group := "things", channel := "twin",
               criterion := "commands", action := "modify" },
    path := "/attributes", value := .obj .nil, status := 0 }

/-- The message emitted for `envRootAttr` under `hStd`. -/
def msgRootAttr : OutMsg :=
  { topic := "$aws/things/test:device/shadow/update",
    payload := some (.obj (.cons "state" (.obj (.cons "reported"
      (.obj (.cons "test" (.num 200) .nil)) .nil)) .nil)) }

/-- Mirror state `{"status":100,"obsolete":"true"}` of the delete-obsolete
merge scenario. -/
def prevSample : Json :=
  .obj (.cons "status" (.num 100) (.cons "obsolete" (.str "true") .nil))

/-- Incoming feature properties `{"status":200}` of the same scenario. -/
def nextSample : Json :=
  .obj (.cons "status" (.num 200) .nil)

/-- An update-accepted payload `{"state":{"reported":{"test":"value"}}}`. -/
def acceptedPayload : Json :=
  .obj (.cons "state" (.obj (.cons "reported"
    (.obj (.cons "test" (.str "value") .nil)) .nil)) .nil)

/-- A two-feature `features` object
`{"f1":{"properties":{"a":1}},"f2":{"properties":{"b":2}}}`, in one of the
two orders a Go map `range` may produce for it. -/
def featuresTwo : JsonFields :=
  .cons "f1" (.obj (.cons "properties" (.obj (.cons "a" (.num 1) .nil)) .nil))
    (.cons "f2" (.obj (.cons "properties" (.obj (.cons "b" (.num 2) .nil)) .nil)) .nil)

/-- The same two-feature object with its entries visited in the other
order. -/
def featuresTwoSwapped : JsonFields :=
  .cons "f2" (.obj (.cons "properties" (.obj (.cons "b" (.num 2) .nil)) .nil))
    (.cons "f1" (.obj (.cons "properties" (.obj (.cons "a" (.num 1) .nil)) .nil)) .nil)

/-- A multi-feature modify envelope (path `/features`) whose features map
was iterated in the `featuresTwo` order. -/
def envTwoFeatA : Envelope :=
  { topic := envRootAttr.topic, path := "/features", value := .obj featuresTwo, status := 0 }

/-- The same envelope payload with its features map iterated in the other
order. -/
def envTwoFeatB : Envelope :=
  { topic := envRootAttr.topic, path := "/features", value := .obj featuresTwoSwapped,
    status := 0 }

/-!  Helper lemmas about the transformer. -/

theorem toShadowMessages_of_shadow {h : Handler} {env : Envelope}
    (hS : isShadowMessage h env = true) :
    toShadowMessages h env = ((toShadowMessages h env).1, true) := by
  unfold toShadowMessages
  rw [hS]
  by_cases hT : topicFilterMatches h env = true
  · simp [hT]
  · simp only [Bool.not_eq_true] at hT
    simp only [hT, if_true, Bool.false_eq_true, if_false]
    split <;> rfl

theorem mem_featureMsg1 {h : Handler} {env : Envelope} {fn : String} {feature : Json}
    {m : OutMsg} (hm : m ∈ featureMsg1 h env fn feature) :
    ∃ v, m = toShadowMessage h env fn v := by
  unfold featureMsg1 at hm
  split at hm
  · exact ⟨.null, by simpa using hm⟩
  · split at hm
    · next props heq => exact ⟨props, by simpa using hm⟩
    · simp at hm

theorem mem_featureMsgs {h : Handler} {env : Envelope} {m : OutMsg} :
    ∀ ff : JsonFields, m ∈ featureMsgs h env ff →
      ∃ fn v, m = toShadowMessage h env fn v
  | .cons k v tl, hm => by
    rw [featureMsgs, List.mem_append] at hm
    rcases hm with hm | hm
    · exact ⟨k, mem_featureMsg1 hm⟩
    · exact mem_featureMsgs tl hm
  | .nil, hm => by simp [featureMsgs] at hm

theorem mem_attrMsgsOf {h : Handler} {env : Envelope} {value : Json} {m : OutMsg}
    (hm : m ∈ attrMsgsOf h env value) : ∃ v, m = toShadowMessage h env "" v := by
  unfold attrMsgsOf at hm
  split at hm
  · next a heq => exact ⟨a, by simpa using hm⟩
  · simp at hm

theorem mem_featMsgsOf {h : Handler} {env : Envelope} {value : Json} {m : OutMsg}
    (hm : m ∈ featMsgsOf h env value) : ∃ fn v, m = toShadowMessage h env fn v := by
  unfold featMsgsOf at hm
  split at hm
  · split at hm
    · exact mem_featureMsgs _ hm
    · simp at hm
  · simp at hm

theorem mem_toShadowMessages {h : Handler} {env : Envelope} {m : OutMsg}
    (hm : m ∈ (toShadowMessages h env).1) :
    ∃ fn v, m = toShadowMessage h env fn v := by
  unfold toShadowMessages at hm
  by_cases hS : isShadowMessage h env = true
  · rw [hS] at hm
    simp only [if_true] at hm
    by_cases hT : topicFilterMatches h env = true
    · simp [hT] at hm
    · simp only [Bool.not_eq_true] at hT
      simp only [hT, Bool.false_eq_true, if_false] at hm
      split at hm
      · simp at hm
      · rw [List.mem_append] at hm
        rcases hm with hm | hm
        · obtain ⟨v, hv⟩ := mem_attrMsgsOf hm
          exact ⟨"", v, hv⟩
        · exact mem_featMsgsOf hm
  · simp only [Bool.not_eq_true] at hS
    simp [hS] at hm

theorem toShadowMessage_payload (h : Handler) (env : Envelope) (fn : String) (v : Json) :
    (toShadowMessage h env fn v).payload =
      if env.topic.action = "delete" && isEntireShadow v then none
      else some (stateWrap v) := by
  by_cases hb : (env.topic.action = "delete" && isEntireShadow v) = true
  · simp only [toShadowMessage, toShadowTopic, hb, if_true, Bool.not_true,
      Bool.false_eq_true, if_false]
  · rw [Bool.not_eq_true] at hb
    simp only [toShadowMessage, toShadowTopic, hb, Bool.false_eq_true, if_false,
      Bool.not_false, if_true]

theorem toShadowMessage_topic_form (h : Handler) (env : Envelope) (fn : String) (v : Json) :
    (toShadowMessage h env fn v).topic = rootShadowTopic h.deviceID (shadowTarget env.topic v) ∨
    (∃ n, (toShadowMessage h env fn v).topic =
       namedShadowTopic h.deviceID n (shadowTarget env.topic v)) ∨
    (∃ c f, (toShadowMessage h env fn v).topic =
       complexNamedShadowTopic h.deviceID c f (shadowTarget env.topic v)) := by
  by_cases hlen : strLen h.deviceID = strLen (env.topic.ns ++ ":" ++ env.topic.entityName)
  · by_cases hfn : fn = ""
    · left
      simp [toShadowMessage, toShadowTopic, shadowTarget, hlen, hfn]
    · right; left
      exact ⟨fn, by simp [toShadowMessage, toShadowTopic, shadowTarget, hlen, hfn]⟩
  · by_cases hfn : fn = ""
    · right; left
      refine ⟨strDrop (env.topic.ns ++ ":" ++ env.topic.entityName) (strLen h.deviceID + 1), ?_⟩
      simp [toShadowMessage, toShadowTopic, shadowTarget, hlen, hfn]
    · right; right
      refine ⟨strDrop (env.topic.ns ++ ":" ++ env.topic.entityName) (strLen h.deviceID + 1),
        fn, ?_⟩
      simp [toShadowMessage, toShadowTopic, shadowTarget, hlen, hfn]

theorem toShadowMessage_topic_congr (h : Handler) (e1 e2 : Envelope)
    (ht : e1.topic = e2.topic) (fn : String) (v : Json) :
    toShadowMessage h e1 fn v = toShadowMessage h e2 fn v := by
  unfold toShadowMessage toShadowTopic
  rw [ht]

theorem featureMsg1_topic_congr (h : Handler) (e1 e2 : Envelope)
    (ht : e1.topic = e2.topic) (fn : String) (v : Json) :
    featureMsg1 h e1 fn v = featureMsg1 h e2 fn v := by
  unfold featureMsg1
  split
  · rw [toShadowMessage_topic_congr h e1 e2 ht]
  · split
    · rw [toShadowMessage_topic_congr h e1 e2 ht]
    · rfl

theorem featureMsgs_eq_flatMap (h : Handler) (env : Envelope) :
    ∀ ff : JsonFields,
      featureMsgs h env ff = ff.toList.flatMap (fun kv => featureMsg1 h env kv.1 kv.2)
  | .nil => rfl
  | .cons k v tl => by
    rw [featureMsgs, JsonFields.toList, List.flatMap_cons, featureMsgs_eq_flatMap h env tl]

theorem featureMsgs_perm (h : Handler) (env : Envelope) (ff1 ff2 : JsonFields)
    (hperm : ff1.toList.Perm ff2.toList) :
    (featureMsgs h env ff1).Perm (featureMsgs h env ff2) := by
  rw [featureMsgs_eq_flatMap, featureMsgs_eq_flatMap]
  exact hperm.flatMap_right _

theorem featureMsgs_topic_congr (h : Handler) (e1 e2 : Envelope)
    (ht : e1.topic = e2.topic) :
    ∀ ff : JsonFields, featureMsgs h e1 ff = featureMsgs h e2 ff
  | .nil => rfl
  | .cons k v tl => by
    rw [featureMsgs, featureMsgs, featureMsg1_topic_congr h e1 e2 ht,
      featureMsgs_topic_congr h e1 e2 ht tl]

theorem toShadowMessages_features (h : Handler) (t : DittoTopic) (st : Int) (ff : JsonFields)
    (hnf : h.payloadFilters = [])
    (hS : isShadowMessage h ⟨t, "/features", .obj ff, st⟩ = true)
    (hT : topicFilterMatches h ⟨t, "/features", .obj ff, st⟩ = false) :
    (toShadowMessages h ⟨t, "/features", .obj ff, st⟩).1 =
      featureMsgs h ⟨t, "/features", .obj ff, st⟩ ff := by
  unfold toShadowMessages
  simp only [hS, if_true, hT, Bool.false_eq_true, if_false]
  have hval : filterPayload h (integrate (strSplitChar "/features" '/') (Json.obj ff)) =
      Json.obj (.cons "features" (.obj ff) .nil) := by
    simp [filterPayload, hnf]
    rfl
  simp only [hval]
  rfl

mutual

theorem fpJson_removed (flt : List (String → Bool)) (path : String) :
    ∀ j : Json, allLeavesMatch flt path j = true → (fpJson flt path j).1 = true
  | .obj fields, hall => by
    simp only [allLeavesMatch] at hall
    simp only [fpJson]
    rw [fpFields_removed flt path fields hall]
    rfl
  | .arr elems, hall => by
    simp only [allLeavesMatch] at hall
    simp only [fpJson]
    rw [fpList_removed flt path 0 elems hall]
    rfl
  | .null, hall => by simpa only [allLeavesMatch, fpJson] using hall
  | .bool _, hall => by simpa only [allLeavesMatch, fpJson] using hall
  | .num _, hall => by simpa only [allLeavesMatch, fpJson] using hall
  | .str _, hall => by simpa only [allLeavesMatch, fpJson] using hall

theorem fpFields_removed (flt : List (String → Bool)) (path : String) :
    ∀ fields : JsonFields, allLeavesMatchFields flt path fields = true →
      fpFields flt path fields = .nil
  | .nil, _ => by simp [fpFields]
  | .cons k v tl, hall => by
    simp only [allLeavesMatchFields, Bool.and_eq_true] at hall
    have h1 := fpJson_removed flt (path ++ "/" ++ k) v hall.1
    have h2 := fpFields_removed flt path tl hall.2
    simp only [fpFields]
    rcases hfp : fpJson flt (path ++ "/" ++ k) v with ⟨b, j2⟩
    rw [hfp] at h1
    simp only at h1
    subst h1
    simpa using h2

theorem fpList_removed (flt : List (String → Bool)) (path : String) :
    ∀ (i : Nat) (elems : JsonList), allLeavesMatchList flt path i elems = true →
      fpList flt path i elems = .nil
  | _, .nil, _ => by simp [fpList]
  | i, .cons v tl, hall => by
    simp only [allLeavesMatchList, Bool.and_eq_true] at hall
    have h1 := fpJson_removed flt (path ++ "/" ++ Nat.repr i) v hall.1
    have h2 := fpList_removed flt path (i + 1) tl hall.2
    simp only [fpList]
    rcases hfp : fpJson flt (path ++ "/" ++ Nat.repr i) v with ⟨b, j2⟩
    rw [hfp] at h1
    simp only at h1
    subst h1
    simpa using h2

end

/-!  Helper lemmas about the modelled merge. -/

theorem lookupJF_append : ∀ (a b : JsonFields) (k : String),
    lookupJF (JsonFields.append a b) k =
      (match lookupJF a k with
       | some v => some v
       | none => lookupJF b k)
  | .nil, b, k => by simp [lookupJF, JsonFields.append]
  | .cons k0 v0 tl, b, k => by
    by_cases hk : k0 = k
    · simp [lookupJF, JsonFields.append, hk]
    · simp [lookupJF, JsonFields.append, hk, lookupJF_append tl b k]

theorem lookupJF_mergeNext : ∀ (pf nf : JsonFields) (k : String),
    lookupJF (mergeNext pf nf) k = (lookupJF nf k).map (fun nv => mergeOpt (lookupJF pf k) nv)
  | pf, .nil, k => by simp [mergeNext, lookupJF]
  | pf, .cons k0 v0 tl, k => by
    by_cases hk : k0 = k
    · subst hk
      cases hpv : lookupJF pf k0 <;> simp [mergeNext, lookupJF, mergeOpt, hpv]
    · simp [mergeNext, lookupJF, hk, lookupJF_mergeNext pf tl k]

theorem lookupJF_tombstones : ∀ (nf pf : JsonFields) (k : String),
    lookupJF (tombstones nf pf) k =
      if (lookupJF nf k).isSome then none
      else (lookupJF pf k).map (fun _ => Json.null)
  | nf, .nil, k => by cases h : (lookupJF nf k).isSome <;> simp [tombstones, lookupJF, h]
  | nf, .cons k0 v0 tl, k => by
    by_cases hk : k0 = k
    · subst hk
      cases h0 : (lookupJF nf k0).isSome
      · simp [tombstones, h0, lookupJF]
      · simp [tombstones, h0, lookupJF_tombstones nf tl k0]
    · cases h0 : (lookupJF nf k0).isSome <;>
        simp [tombstones, h0, lookupJF, hk, lookupJF_tombstones nf tl k]

theorem lookupJF_merged (pf nf : JsonFields) (k : String) :
    lookupJF (JsonFields.append (mergeNext pf nf) (tombstones nf pf)) k =
      (match lookupJF nf k with
       | some nv => some (mergeOpt (lookupJF pf k) nv)
       | none => (lookupJF pf k).map (fun _ => Json.null)) := by
  rw [lookupJF_append, lookupJF_mergeNext, lookupJF_tombstones]
  cases h : lookupJF nf k <;> simp [h]

theorem mergeArr_get? : ∀ (pa na : JsonList) (i : Nat),
    (mergeArr pa na).get? i = (na.get? i).map (fun nv => mergeOpt (pa.get? i) nv)
  | pa, .nil, i => by cases pa <;> simp [mergeArr, JsonList.get?]
  | .nil, .cons n ns, 0 => by simp [mergeArr, JsonList.get?, mergeOpt]
  | .nil, .cons n ns, i + 1 => by
    simp [mergeArr, JsonList.get?, mergeArr_get? .nil ns i]
  | .cons p ps, .cons n ns, 0 => by simp [mergeArr, JsonList.get?, mergeOpt]
  | .cons p ps, .cons n ns, i + 1 => by
    simp [mergeArr, JsonList.get?, mergeArr_get? ps ns i]

theorem mergeArr_length : ∀ pa na : JsonList, (mergeArr pa na).length = na.length
  | pa, .nil => by cases pa <;> simp [mergeArr, JsonList.length]
  | .nil, .cons n ns => by simp [mergeArr, JsonList.length, mergeArr_length .nil ns]
  | .cons p ps, .cons n ns => by simp [mergeArr, JsonList.length, mergeArr_length ps ns]

theorem getPath_append : ∀ (p q : List PathStep) (j : Json),
    getPath j (p ++ q) = (getPath j p).bind (fun v => getPath v q)
  | [], q, j => by simp [getPath]
  | .key k :: rest, q, j => by
    cases j
    case obj fields =>
      simp only [List.cons_append, getPath]
      cases h : lookupJF fields k
      · simp
      · simp [getPath_append rest q]
    all_goals simp [getPath]
  | .idx i :: rest, q, j => by
    cases j
    case arr elems =>
      simp only [List.cons_append, getPath]
      cases h : JsonList.get? elems i
      · simp
      · simp [getPath_append rest q]
    all_goals simp [getPath]

theorem getPath_merge_both : ∀ (p : List PathStep) (prev next P N : Json),
    getPath prev p = some P → getPath next p = some N →
    getPath (mergeReported prev next) p = some (mergeReported P N)
  | [], prev, next, P, N, hp, hn => by
    simp only [getPath, Option.some_inj] at hp hn
    subst hp; subst hn; simp [getPath]
  | .key k :: rest, prev, next, P, N, hp, hn => by
    cases prev
    case obj pf =>
      cases next
      case obj nf =>
        simp only [getPath] at hp hn
        cases hpv : lookupJF pf k <;> rw [hpv] at hp
        · exact absurd hp (by simp)
        case some pv =>
        cases hnv : lookupJF nf k <;> rw [hnv] at hn
        · exact absurd hn (by simp)
        case some nv =>
        have hlk : lookupJF (JsonFields.append (mergeNext pf nf) (tombstones nf pf)) k =
            some (mergeReported pv nv) := by
          rw [lookupJF_merged, hnv]
          simp [hpv, mergeOpt]
        simp only [mergeReported, getPath, hlk]
        exact getPath_merge_both rest pv nv P N hp hn
      all_goals exact absurd hn (by simp [getPath])
    all_goals exact absurd hp (by simp [getPath])
  | .idx i :: rest, prev, next, P, N, hp, hn => by
    cases prev
    case arr pa =>
      cases next
      case arr na =>
        simp only [getPath] at hp hn
        cases hpv : JsonList.get? pa i <;> rw [hpv] at hp
        · exact absurd hp (by simp)
        case some pv =>
        cases hnv : JsonList.get? na i <;> rw [hnv] at hn
        · exact absurd hn (by simp)
        case some nv =>
        have hlk : (mergeArr pa na).get? i = some (mergeReported pv nv) := by
          rw [mergeArr_get?, hnv]
          simp [hpv, mergeOpt]
        simp only [mergeReported, getPath, hlk]
        exact getPath_merge_both rest pv nv P N hp hn
      all_goals exact absurd hn (by simp [getPath])
    all_goals exact absurd hp (by simp [getPath])

theorem mergeReported_leaf (prev next : Json) (hl : isLeaf next = true) :
    mergeReported prev next = next := by
  cases prev <;> cases next <;> simp_all [mergeReported, isLeaf]

theorem getPath_merge_leaf : ∀ (p : List PathStep) (prev next v : Json),
    getPath next p = some v → isLeaf v = true →
    getPath (mergeReported prev next) p = some v
  | [], prev, next, v, hn, hl => by
    simp only [getPath, Option.some_inj] at hn
    subst hn
    simp [getPath, mergeReported_leaf prev next hl]
  | .key k :: rest, prev, next, v, hn, hl => by
    cases next
    case obj nf =>
      simp only [getPath] at hn
      cases hnv : lookupJF nf k <;> rw [hnv] at hn
      · exact absurd hn (by simp)
      case some nv =>
      cases prev
      case obj pf =>
        cases hpv : lookupJF pf k
        · have hlk : lookupJF (JsonFields.append (mergeNext pf nf) (tombstones nf pf)) k =
              some nv := by
            rw [lookupJF_merged, hnv]
            simp [hpv, mergeOpt]
          simp only [mergeReported, getPath, hlk]
          exact hn
        case some pv =>
          have hlk : lookupJF (JsonFields.append (mergeNext pf nf) (tombstones nf pf)) k =
              some (mergeReported pv nv) := by
            rw [lookupJF_merged, hnv]
            simp [hpv, mergeOpt]
          simp only [mergeReported, getPath, hlk]
          exact getPath_merge_leaf rest pv nv v hn hl
      all_goals
        simp only [mergeReported, getPath, hnv]
        exact hn
    all_goals exact absurd hn (by simp [getPath])
  | .idx i :: rest, prev, next, v, hn, hl => by
    cases next
    case arr na =>
      simp only [getPath] at hn
      cases hnv : JsonList.get? na i <;> rw [hnv] at hn
      · exact absurd hn (by simp)
      case some nv =>
      cases prev
      case arr pa =>
        cases hpv : JsonList.get? pa i
        · have hlk : (mergeArr pa na).get? i = some nv := by
            rw [mergeArr_get?, hnv]
            simp [hpv, mergeOpt]
          simp only [mergeReported, getPath, hlk]
          exact hn
        case some pv =>
          have hlk : (mergeArr pa na).get? i = some (mergeReported pv nv) := by
            rw [mergeArr_get?, hnv]
            simp [hpv, mergeOpt]
          simp only [mergeReported, getPath, hlk]
          exact getPath_merge_leaf rest pv nv v hn hl
      all_goals
        simp only [mergeReported, getPath, hnv]
        exact hn
    all_goals exact absurd hn (by simp [getPath])

/-!  The claims. -/

/-- C1: the reported object placed in an update payload is the deep
merge-and-tombstone of the previous mirror state `prev` and the incoming
value `next` (modelled from the spec, `mergeReported`): every key reachable
in `prev` but not in `next` at the same path appears with value `null`,
leaves of `next` keep their value from `next`, arrays are merged index-wise
with the result's length equal to `next`'s length, and when `prev` is none
`next` is used verbatim. -/
theorem c1_merge_and_tombstone :
    (∀ next : Json, mergeOpt none next = next) ∧
    (∀ (prev next : Json) (p : List PathStep) (pf nf : JsonFields) (k : String),
      getPath prev p = some (.obj pf) → getPath next p = some (.obj nf) →
      (lookupJF pf k).isSome = true → lookupJF nf k = none →
      getPath (mergeReported prev next) (p ++ [PathStep.key k]) = some Json.null) ∧
    (∀ (prev next v : Json) (p : List PathStep),
      getPath next p = some v → isLeaf v = true →
      getPath (mergeReported prev next) p = some v) ∧
    (∀ (prev next : Json) (p : List PathStep) (pa na : JsonList),
      getPath prev p = some (.arr pa) → getPath next p = some (.arr na) →
      getPath (mergeReported prev next) p = some (.arr (mergeArr pa na)) ∧
      (mergeArr pa na).length = na.length ∧
      ∀ i : Nat, (mergeArr pa na).get? i =
        ((na.get? i).map (fun nv => mergeOpt (pa.get? i) nv))) := by
  refine ⟨fun next => rfl, ?_, ?_, ?_⟩
  · intro prev next p pf nf k hp hn hpf hnf
    rw [getPath_append, getPath_merge_both p prev next _ _ hp hn]
    obtain ⟨pv, hpv⟩ := Option.isSome_iff_exists.mp hpf
    have hlk : lookupJF (JsonFields.append (mergeNext pf nf) (tombstones nf pf)) k =
        some Json.null := by
      rw [lookupJF_merged, hnf]
      simp [hpv]
    simp [mergeReported, getPath, hlk]
  · intro prev next v p hn hl
    exact getPath_merge_leaf p prev next v hn hl
  · intro prev next p pa na hp hn
    refine ⟨?_, mergeArr_length pa na, fun i => mergeArr_get? pa na i⟩
    rw [getPath_merge_both p prev next _ _ hp hn]
    simp [mergeReported]

/-- Witness for C1, at the delete-obsolete-property scenario:
`prev = {"status":100,"obsolete":"true"}`, `next = {"status":200}`. -/
theorem c1_witness :
    mergeOpt none nextSample = nextSample ∧
    getPath (mergeReported prevSample nextSample) [PathStep.key "obsolete"] = some Json.null ∧
    getPath (mergeReported prevSample nextSample) [PathStep.key "status"] =
      some (Json.num 200) ∧
    (mergeArr (.cons Json.null (.cons Json.null .nil)) (.cons (Json.num 1) .nil)).length =
      (JsonList.cons (Json.num 1) .nil).length :=
  ⟨c1_merge_and_tombstone.1 nextSample,
   c1_merge_and_tombstone.2.1 prevSample nextSample []
     (.cons "status" (.num 100) (.cons "obsolete" (.str "true") .nil))
     (.cons "status" (.num 200) .nil) "obsolete" rfl rfl rfl rfl,
   c1_merge_and_tombstone.2.2.1 prevSample nextSample (.num 200) [PathStep.key "status"]
     rfl rfl,
   (c1_merge_and_tombstone.2.2.2 (.arr (.cons Json.null (.cons Json.null .nil)))
     (.arr (.cons (Json.num 1) .nil)) [] (.cons Json.null (.cons Json.null .nil))
     (.cons (Json.num 1) .nil) rfl rfl).2.1⟩

/-- C2: every emitted message that carries a payload carries exactly
`{"state":{"reported": v}}` — the single top-level key `state`, whose value
has the single top-level key `reported`. -/
theorem c2_update_payload_shape (h : Handler) (env : Envelope) (m : OutMsg) (p : Json)
    (hm : m ∈ (toShadowMessages h env).1) (hp : m.payload = some p) :
    ∃ v, p = Json.obj (.cons "state" (.obj (.cons "reported" v .nil)) .nil) := by
  obtain ⟨fn, v, rfl⟩ := mem_toShadowMessages hm
  rw [toShadowMessage_payload] at hp
  split at hp
  · exact absurd hp (by simp)
  · refine ⟨v, ?_⟩
    injection hp with h2
    rw [← h2]
    rfl

/-- Witness for C2, at the root-attribute update scenario. -/
theorem c2_witness :
    ∃ v, Json.obj (.cons "state" (.obj (.cons "reported"
        (.obj (.cons "test" (.num 200) .nil)) .nil)) .nil) =
      Json.obj (.cons "state" (.obj (.cons "reported" v .nil)) .nil) :=
  c2_update_payload_shape hStd envRootAttr msgRootAttr
    (Json.obj (.cons "state" (.obj (.cons "reported"
      (.obj (.cons "test" (.num 200) .nil)) .nil)) .nil))
    (by decide) rfl

/-- C3 counterexample: a child-feature update emits the topic
`$aws/things/test:device/shadow/name/edge:test/update`, which matches both
the named-shadow template (root feature / child attributes,
`N = "edge:test"`) and the complex named-shadow template (child feature,
`C = "edge"`, `F = "test"`) — so the emitted topic does not match exactly
one of the four templates. -/
theorem c3_counterexample :
    (toShadowMessages hStd envChildFeat).1.map (fun m => m.topic) =
      ["$aws/things/test:device/shadow/name/edge:test/update"] ∧
    "$aws/things/test:device/shadow/name/edge:test/update" =
      namedShadowTopic "test:device" "edge:test" "update" ∧
    "$aws/things/test:device/shadow/name/edge:test/update" =
      complexNamedShadowTopic "test:device" "edge" "test" "update" :=
  ⟨rfl, rfl, rfl⟩

/-- C3 (amended): every emitted message's topic matches at least one of the
four templates (the templates overlap, so exactly-one fails: see the
counterexample); the target suffix is `delete` with an empty payload exactly
when the envelope action is `delete` and the value at that scope is not a
map or an empty map, and otherwise `update` with the payload carrying the
value under `state.reported`. -/
theorem c3_amended_topics (h : Handler) (env : Envelope) (m : OutMsg)
    (hm : m ∈ (toShadowMessages h env).1) :
    ∃ v : Json,
      (m.payload = if env.topic.action = "delete" && isEntireShadow v then none
        else some (stateWrap v)) ∧
      (shadowTarget env.topic v =
        if env.topic.action = "delete" && isEntireShadow v then "delete" else "update") ∧
      (m.topic = rootShadowTopic h.deviceID (shadowTarget env.topic v) ∨
       (∃ n, m.topic = namedShadowTopic h.deviceID n (shadowTarget env.topic v)) ∨
       (∃ c f, m.topic = complexNamedShadowTopic h.deviceID c f (shadowTarget env.topic v))) := by
  obtain ⟨fn, v, rfl⟩ := mem_toShadowMessages hm
  exact ⟨v, toShadowMessage_payload h env fn v, rfl, toShadowMessage_topic_form h env fn v⟩

/-- Witness for the amended C3, at the root-attribute update scenario. -/
theorem c3_witness :
    ∃ v : Json,
      (msgRootAttr.payload =
        if envRootAttr.topic.action = "delete" && isEntireShadow v then none
        else some (stateWrap v)) ∧
      (shadowTarget envRootAttr.topic v =
        if envRootAttr.topic.action = "delete" && isEntireShadow v then "delete"
        else "update") ∧
      (msgRootAttr.topic = rootShadowTopic hStd.deviceID (shadowTarget envRootAttr.topic v) ∨
       (∃ n, msgRootAttr.topic =
          namedShadowTopic hStd.deviceID n (shadowTarget envRootAttr.topic v)) ∨
       (∃ c f, msgRootAttr.topic =
          complexNamedShadowTopic hStd.deviceID c f (shadowTarget envRootAttr.topic v))) :=
  c3_amended_topics hStd envRootAttr msgRootAttr (by decide)

/-- C4: after the mirror observes an update-accepted message with a
well-formed payload, the state under the topic's shadow identifier is
exactly the `state.reported` subtree, replacing any prior value; a
subsequent delete-accepted message on the same shadow identifier leaves no
entry. -/
theorem c4_mirror_update_then_delete (deviceID : String) (m : Mirror) (t : String)
    (p r : Json) (hud : strEndsWith t "/delete/accepted" = false)
    (hrep : getReportedState p = some r) :
    (shadowStateHandle deviceID m (some t) (some p)).shadows (getShadowID deviceID t) =
      some r ∧
    ∀ (t2 : String) (pay2 : Option Json),
      strEndsWith t2 "/delete/accepted" = true →
      getShadowID deviceID t2 = getShadowID deviceID t →
      (shadowStateHandle deviceID
        ((shadowStateHandle deviceID m (some t) (some p)).shadows) (some t2) pay2).shadows
        (getShadowID deviceID t) = none := by
  constructor
  · simp [shadowStateHandle, hud, hrep]
  · intro t2 pay2 hdel heq
    simp [shadowStateHandle, hdel, heq]

/-- Witness for C4, at the root shadow update/delete scenario of the tests. -/
theorem c4_witness :
    (shadowStateHandle "test:device" (fun _ => none)
      (some "$aws/things/test:device/shadow/update/accepted") (some acceptedPayload)).shadows
      (getShadowID "test:device" "$aws/things/test:device/shadow/update/accepted") =
      some (Json.obj (.cons "test" (.str "value") .nil)) ∧
    (shadowStateHandle "test:device"
      ((shadowStateHandle "test:device" (fun _ => none)
        (some "$aws/things/test:device/shadow/update/accepted")
        (some acceptedPayload)).shadows)
      (some "$aws/things/test:device/shadow/delete/accepted") none).shadows
      (getShadowID "test:device" "$aws/things/test:device/shadow/update/accepted") = none := by
  have h := c4_mirror_update_then_delete "test:device" (fun _ => none)
    "$aws/things/test:device/shadow/update/accepted" acceptedPayload
    (Json.obj (.cons "test" (.str "value") .nil)) rfl rfl
  exact ⟨h.1, h.2 "$aws/things/test:device/shadow/delete/accepted" none rfl rfl⟩

/-- C5: an update-accepted message whose payload is unparseable or has no
extractable `state.reported` makes the handler fail and leaves the mirror
untouched; a delete-accepted message always succeeds and is independent of
its payload. -/
theorem c5_mirror_error_handling (deviceID : String) (m : Mirror) (t : String)
    (payload : Option Json) :
    (strEndsWith t "/delete/accepted" = false →
      (payload = none ∨ ∃ p, payload = some p ∧ getReportedState p = none) →
      (shadowStateHandle deviceID m (some t) payload).error ≠ none ∧
      (shadowStateHandle deviceID m (some t) payload).shadows = m) ∧
    (strEndsWith t "/delete/accepted" = true →
      (shadowStateHandle deviceID m (some t) payload).error = none ∧
      ∀ pay2 : Option Json,
        shadowStateHandle deviceID m (some t) payload =
          shadowStateHandle deviceID m (some t) pay2) := by
  constructor
  · intro hud hbad
    rcases hbad with rfl | ⟨p, rfl, hrep⟩
    · simp [shadowStateHandle, hud]
    · simp [shadowStateHandle, hud, hrep]
  · intro hdel
    constructor
    · simp [shadowStateHandle, hdel]
    · intro pay2
      simp [shadowStateHandle, hdel]

/-- Witness for C5: an unparseable payload on the update-accepted topic. -/
theorem c5_witness :
    (shadowStateHandle "test:device" (fun _ => none)
      (some "$aws/things/test:device/shadow/update/accepted") none).error ≠ none ∧
    (shadowStateHandle "test:device" (fun _ => none)
      (some "$aws/things/test:device/shadow/update/accepted") none).shadows =
      (fun _ => none) :=
  (c5_mirror_error_handling "test:device" (fun _ => none)
    "$aws/things/test:device/shadow/update/accepted" none).1 rfl (Or.inl rfl)

/-- C6: an envelope whose Ditto topic string matches the configured topic
filter produces no shadow messages. -/
theorem c6_topic_filter_drops (h : Handler) (env : Envelope)
    (hT : topicFilterMatches h env = true) :
    (toShadowMessages h env).1 = [] := by
  unfold toShadowMessages
  by_cases hS : isShadowMessage h env = true
  · simp [hS, hT]
  · rw [Bool.not_eq_true] at hS
    simp [hS]

/-- Witness for C6: a match-everything topic filter. -/
theorem c6_witness : (toShadowMessages hTopicFilterAll envRootAttr).1 = [] :=
  c6_topic_filter_drops hTopicFilterAll envRootAttr rfl

/-- C7 counterexample: with no payload filter configured, the reconstructed
value `{"attributes":{}}` has no leaves, so every leaf vacuously matches
some configured filter, yet the transformer emits a message. -/
theorem c7_counterexample :
    hStd.payloadFilters = [] ∧
    allLeavesMatch hStd.payloadFilters ""
      (integrate (strSplitChar envEmptyAttrs.path '/') envEmptyAttrs.value) = true ∧
    (toShadowMessages hStd envEmptyAttrs).1 ≠ [] :=
  ⟨rfl, rfl, by decide⟩

/-- C7 (amended): provided at least one payload filter is configured, if
every leaf of the reconstructed value has a synthesized path matching some
payload filter, the transformer emits no messages (containers that become
empty during filtering are themselves removed). -/
theorem c7_amended_all_filtered (h : Handler) (env : Envelope)
    (hne : h.payloadFilters ≠ [])
    (hall : allLeavesMatch h.payloadFilters ""
      (integrate (strSplitChar env.path '/') env.value) = true) :
    (toShadowMessages h env).1 = [] := by
  unfold toShadowMessages
  by_cases hS : isShadowMessage h env = true
  case neg =>
    rw [Bool.not_eq_true] at hS
    simp [hS]
  by_cases hT : topicFilterMatches h env = true
  · simp [hS, hT]
  · rw [Bool.not_eq_true] at hT
    have hrem := fpJson_removed h.payloadFilters ""
      (integrate (strSplitChar env.path '/') env.value) hall
    have hnull : filterPayload h (integrate (strSplitChar env.path '/') env.value) = .null := by
      unfold filterPayload
      rw [if_pos (List.length_pos.mpr hne)]
      rcases hfp : fpJson h.payloadFilters "" (integrate (strSplitChar env.path '/') env.value)
        with ⟨b, j⟩
      rw [hfp] at hrem
      simp only at hrem
      subst hrem
      rfl
    simp [hS, hT, hnull]

/-- Witness for the amended C7: a match-everything payload filter. -/
theorem c7_witness : (toShadowMessages hPayloadFilterAll envRootAttr).1 = [] :=
  c7_amended_all_filtered hPayloadFilterAll envRootAttr (by simp [hPayloadFilterAll]) rfl

/-- C8: the command request filter forwards a message to the wrapped inner
handler exactly when the payload parses to an envelope whose thing identity
equals the device identity or begins with it followed by `:`; in every
other case (including unparseable payloads) it returns an empty message
list and a nil error. -/
theorem c8_command_filter (deviceID : String)
    (inner : String → List OutMsg × Option String)
    (parseEnv : String → Option DittoTopic) (payload : String) :
    ((∃ t, parseEnv payload = some t ∧ thingMatches deviceID t = true) →
      cmdFilter deviceID inner parseEnv payload = inner payload) ∧
    ((∀ t, parseEnv payload = some t → thingMatches deviceID t = false) →
      cmdFilter deviceID inner parseEnv payload = ([], none)) := by
  constructor
  · rintro ⟨t, hp, hmt⟩
    simp [cmdFilter, hp, hmt]
  · intro hall
    unfold cmdFilter
    cases hp : parseEnv payload
    · rfl
    · next t => simp [hall t hp]

/-- Witness for C8: a payload parsing to the root device identity is
forwarded. -/
theorem c8_witness :
    cmdFilter "test:device" (fun _ => ([msgRootAttr], none))
      (fun _ => some envRootAttr.topic) "x" = ([msgRootAttr], none) :=
  (c8_command_filter "test:device" (fun _ => ([msgRootAttr], none))
    (fun _ => some envRootAttr.topic) "x").1 ⟨envRootAttr.topic, rfl, rfl⟩

/-- C9 counterexample: `envTwoFeatA` and `envTwoFeatB` are the same input
payload — identical topic, path and status, and features objects that are
permutations of each other, which is the freedom a Go map `range` has on
two invocations over the same parsed bytes — yet the transformer emits the
two feature messages in different orders (the same messages as a multiset),
refuting "in the same order". -/
theorem c9_counterexample :
    envTwoFeatA.topic = envTwoFeatB.topic ∧
    envTwoFeatA.path = envTwoFeatB.path ∧
    envTwoFeatA.status = envTwoFeatB.status ∧
    featuresTwo.toList.Perm featuresTwoSwapped.toList ∧
    (toShadowMessages hStd envTwoFeatA).1 ≠ (toShadowMessages hStd envTwoFeatB).1 ∧
    ((toShadowMessages hStd envTwoFeatA).1).Perm ((toShadowMessages hStd envTwoFeatB).1) :=
  ⟨rfl, rfl, rfl, List.Perm.swap _ _ _, by decide, List.Perm.swap _ _ _⟩

/-- C9 (amended): applying the transformation twice to the same input
payload while the mirror is unchanged produces the same outbound messages
up to the order of the per-feature fan-out: for a fixed parsed envelope the
output lists are identical (the shadow branch depends on nothing else and
never writes the mirror), and the only freedom between two runs on the
same payload — the iteration order of the features map — permutes the
emitted feature messages, preserving their topics and payloads as a
multiset.  "In the same order" fails, as the counterexample shows. -/
theorem c9_deterministic_up_to_feature_order :
    (∀ (h : Handler) (parse : String → Option Envelope)
       (d1 d2 : String → List OutMsg × Option String) (p1 p2 : String) (env : Envelope),
       parse p1 = some env → parse p2 = some env → isShadowMessage h env = true →
       handleMessage h parse d1 p1 = handleMessage h parse d2 p2) ∧
    (∀ (h : Handler) (env : Envelope) (ff1 ff2 : JsonFields),
       ff1.toList.Perm ff2.toList →
       (featureMsgs h env ff1).Perm (featureMsgs h env ff2)) ∧
    (∀ (h : Handler) (t : DittoTopic) (st : Int) (ff1 ff2 : JsonFields),
       h.payloadFilters = [] →
       ff1.toList.Perm ff2.toList →
       ((toShadowMessages h ⟨t, "/features", .obj ff1, st⟩).1).Perm
         ((toShadowMessages h ⟨t, "/features", .obj ff2, st⟩).1)) := by
  refine ⟨?_, ?_, ?_⟩
  · intro h parse d1 d2 p1 p2 env h1 h2 hS
    obtain ⟨msgs, hmsgs⟩ : ∃ msgs, toShadowMessages h env = (msgs, true) :=
      ⟨_, toShadowMessages_of_shadow hS⟩
    simp [handleMessage, h1, h2, hmsgs]
  · intro h env ff1 ff2 hperm
    exact featureMsgs_perm h env ff1 ff2 hperm
  · intro h t st ff1 ff2 hnf hperm
    by_cases hS : isShadowMessage h ⟨t, "/features", .obj ff1, st⟩ = true
    · by_cases hT : topicFilterMatches h ⟨t, "/features", .obj ff1, st⟩ = true
      · have h1 : (toShadowMessages h ⟨t, "/features", .obj ff1, st⟩).1 = [] := by
          simp [toShadowMessages, hS, hT]
        have h2 : (toShadowMessages h ⟨t, "/features", .obj ff2, st⟩).1 = [] := by
          simp [toShadowMessages, show isShadowMessage h ⟨t, "/features", .obj ff2, st⟩ =
            true from hS, show topicFilterMatches h ⟨t, "/features", .obj ff2, st⟩ =
            true from hT]
        rw [h1, h2]
      · rw [Bool.not_eq_true] at hT
        rw [toShadowMessages_features h t st ff1 hnf hS hT,
          toShadowMessages_features h t st ff2 hnf
            (show isShadowMessage h ⟨t, "/features", .obj ff2, st⟩ = true from hS)
            (show topicFilterMatches h ⟨t, "/features", .obj ff2, st⟩ = false from hT),
          featureMsgs_topic_congr h ⟨t, "/features", .obj ff2, st⟩
            ⟨t, "/features", .obj ff1, st⟩ rfl ff2]
        exact featureMsgs_perm h ⟨t, "/features", .obj ff1, st⟩ ff1 ff2 hperm
    · rw [Bool.not_eq_true] at hS
      have h1 : (toShadowMessages h ⟨t, "/features", .obj ff1, st⟩).1 = [] := by
        simp [toShadowMessages, hS]
      have h2 : (toShadowMessages h ⟨t, "/features", .obj ff2, st⟩).1 = [] := by
        simp [toShadowMessages, show isShadowMessage h ⟨t, "/features", .obj ff2, st⟩ =
          false from hS]
      rw [h1, h2]

/-- Witness for the amended C9: a fixed parse gives identical outputs, and
the swapped two-feature map gives a permutation of the emitted messages. -/
theorem c9_perm_witness :
    handleMessage hStd (fun _ => some envRootAttr) (fun _ => ([], some "error1")) "a" =
      handleMessage hStd (fun _ => some envRootAttr) (fun _ => ([], some "error2")) "b" ∧
    ((toShadowMessages hStd ⟨envRootAttr.topic, "/features", .obj featuresTwo, 0⟩).1).Perm
      ((toShadowMessages hStd
        ⟨envRootAttr.topic, "/features", .obj featuresTwoSwapped, 0⟩).1) :=
  ⟨c9_deterministic_up_to_feature_order.1 hStd (fun _ => some envRootAttr)
     (fun _ => ([], some "error1")) (fun _ => ([], some "error2")) "a" "b" envRootAttr
     rfl rfl rfl,
   c9_deterministic_up_to_feature_order.2.2 hStd envRootAttr.topic 0 featuresTwo
     featuresTwoSwapped rfl (List.Perm.swap _ _ _)⟩

/-- C10: for every payload that parses as a twin shadow envelope,
`HandleMessage` returns a nil error, and a failed JSON serialization of an
outbound payload is silently emitted as an empty payload rather than
reported. -/
theorem c10_shadow_no_error (h : Handler) (parse : String → Option Envelope)
    (d : String → List OutMsg × Option String) (p : String) (env : Envelope)
    (hp : parse p = some env) (hS : isShadowMessage h env = true) :
    (handleMessage h parse d p).2 = none ∧
    ∀ (ser : Json → Option String) (m : OutMsg) (v : Json),
      m ∈ (handleMessage h parse d p).1 → m.payload = some v → ser v = none →
      emitBytes ser m = (m.topic, "") := by
  constructor
  · obtain ⟨msgs, hmsgs⟩ : ∃ msgs, toShadowMessages h env = (msgs, true) :=
      ⟨_, toShadowMessages_of_shadow hS⟩
    simp [handleMessage, hp, hmsgs]
  · intro ser m v _ hpay hser
    unfold emitBytes
    rw [hpay]
    simp [hser]

/-- Witness for C10: the root-attribute envelope with a failing serializer. -/
theorem c10_witness :
    (handleMessage hStd (fun _ => some envRootAttr) (fun _ => ([], some "err")) "a").2 =
      none ∧
    emitBytes (fun _ => none) msgRootAttr = (msgRootAttr.topic, "") := by
  have h := c10_shadow_no_error hStd (fun _ => some envRootAttr)
    (fun _ => ([], some "err")) "a" envRootAttr rfl rfl
  exact ⟨h.1, h.2 (fun _ => none) msgRootAttr
    (.obj (.cons "state" (.obj (.cons "reported"
      (.obj (.cons "test" (.num 200) .nil)) .nil)) .nil))
    (by decide) rfl rfl⟩

end AwsConnector
